import Mathlib

/-!
Verification of the ViceVault DCA simulation engine and bank-statement parser.

The definitions below are a shallow embedding of the TypeScript sources:
the DCA worker (shouldPurchaseOnDate, calculateGhostPortfolio,
calculatePotentialPortfolio, aggregateByMonth) and the statement parser
(pattern families, normalizeDate, cleanDescription, parseAmount,
isOverlapping, deduplicateTransactions, parseStatementText).
JavaScript numbers are modelled as exact rationals, calendar dates as
year/month/day records with the ECMAScript day-serial arithmetic, and
strings as Lean strings manipulated through their character lists.
-/

namespace ViceVault

/-! ## Character and string helpers -/

/-- Digit character test, mirrors the regex class backslash-d over ASCII. -/
def isDigitChar (c : Char) : Bool := '0' ≤ c && c ≤ '9'

/-- Value of a digit character. -/
def digitVal (c : Char) : Nat := c.toNat - '0'.toNat

/-- Numeric value of a digit list (most significant first). -/
def digitsToNat (l : List Char) : Nat :=
  l.foldl (fun acc c => acc * 10 + digitVal c) 0

/-- Auxiliary accumulator-based splitter. -/
def splitOnCharAux (sep : Char) : List Char → List Char → List (List Char)
  | [], acc => [acc.reverse]
  | c :: rest, acc =>
    if c == sep then acc.reverse :: splitOnCharAux sep rest []
    else splitOnCharAux sep rest (c :: acc)

/-- Split a character list at every occurrence of a separator,
mirrors the JavaScript String.prototype.split on a one-character separator. -/
def splitOnChar (sep : Char) (l : List Char) : List (List Char) :=
  splitOnCharAux sep l []

/-- Strict lexicographic comparison of character lists by code point,
mirrors the JavaScript string less-than on ASCII text. -/
def lexLt : List Char → List Char → Bool
  | [], [] => false
  | [], _ :: _ => true
  | _ :: _, [] => false
  | c :: cs, d :: ds =>
    if c.toNat < d.toNat then true
    else if d.toNat < c.toNat then false
    else lexLt cs ds

/-- The JavaScript comparison a greater-or-equal b on strings. -/
def strGe (a b : String) : Bool := ! lexLt a.data b.data

/-! ## Calendar dates

The worker builds JavaScript Date values from ISO YYYY-MM-DD strings and
only ever uses their date-only content (relational comparison, getDay,
getDate, and getTime differences in whole days).  A date is modelled as a
year/month/day record together with its day serial (days since 1970-01-01,
the ECMAScript epoch); an unparseable or out-of-range string behaves like
an Invalid Date, modelled by Option.none. -/

structure CivilDate where
  year : Nat
  month : Nat
  day : Nat
deriving DecidableEq, Repr

/-- Leap-year test of the Gregorian calendar. -/
def isLeapYear (y : Nat) : Bool :=
  y % 4 == 0 && (y % 100 != 0 || y % 400 == 0)

/-- Number of days in a given month. -/
def daysInMonth (y m : Nat) : Nat :=
  if m == 2 then (if isLeapYear y then 29 else 28)
  else if m == 4 || m == 6 || m == 9 || m == 11 then 30
  else 31

/-- Day serial of a civil date: days since 1970-01-01 (Hinnant's
days-from-civil algorithm, exact for the Gregorian calendar). -/
def dateSerial (dt : CivilDate) : Int :=
  let y : Int := if dt.month ≤ 2 then (dt.year : Int) - 1 else (dt.year : Int)
  let m : Int := dt.month
  let d : Int := dt.day
  let era : Int := y / 400
  let yoe : Int := y - era * 400
  let mp : Int := (m + 9) % 12
  let doy : Int := (153 * mp + 2) / 5 + d - 1
  let doe : Int := yoe * 365 + yoe / 4 - yoe / 100 + doy
  era * 146097 + doe - 719468

/-- Weekday with the JavaScript getDay convention (0 = Sunday);
1970-01-01 was a Thursday. -/
def getDay (dt : CivilDate) : Int := (dateSerial dt + 4) % 7

/-- Parse an ISO YYYY-MM-DD string the way the ECMAScript Date constructor
does for date-only forms: exact digit-group shapes and an in-range
calendar date, otherwise an Invalid Date (none). -/
def parseJSDate (s : String) : Option CivilDate :=
  match splitOnChar '-' s.data with
  | [ys, ms, ds] =>
    if ys.length == 4 && ms.length == 2 && ds.length == 2
        && ys.all isDigitChar && ms.all isDigitChar && ds.all isDigitChar then
      let y := digitsToNat ys
      let mo := digitsToNat ms
      let d := digitsToNat ds
      if 1 ≤ mo && mo ≤ 12 && 1 ≤ d && d ≤ daysInMonth y mo then
        some ⟨y, mo, d⟩
      else none
    else none
  | _ => none

/-- JavaScript relational comparison of two Date values: false when either
is an Invalid Date (NaN comparison). -/
def jsDateLt (a b : Option CivilDate) : Bool :=
  match a, b with
  | some x, some y => decide (dateSerial x < dateSerial y)
  | _, _ => false

/-- JavaScript strict equality of the getDay values of two Date values:
false when either is Invalid (NaN is not equal to NaN). -/
def jsGetDayEq (a b : Option CivilDate) : Bool :=
  match a, b with
  | some x, some y => getDay x == getDay y
  | _, _ => false

/-! ## DCA worker data model (src/workers/dca-engine.worker.ts) -/

structure PricePoint where
  date : String
  close : ℚ
deriving DecidableEq, Repr

structure PortfolioPoint where
  date : String
  cashSpent : ℚ
  portfolioValue : ℚ
  sharesOwned : ℚ
deriving DecidableEq, Repr

structure DCASummary where
  totalCashSpent : ℚ
  currentValue : ℚ
  totalShares : ℚ
  gainLoss : ℚ
  gainLossPercent : ℚ
  cleanDaysCount : Nat
  purchasesCount : Nat
deriving DecidableEq, Repr

structure DCAResult where
  portfolio : List PortfolioPoint
  summary : DCASummary
deriving DecidableEq, Repr

inductive Frequency where
  | daily
  | weekly
  | biweekly
  | monthly
deriving DecidableEq, Repr

/-- Embedding of shouldPurchaseOnDate: decide whether a date matches the
purchase frequency relative to the start date. -/
def shouldPurchaseOnDate (dateStr : String) (frequency : Frequency)
    (startDate : String) : Bool :=
  let date := parseJSDate dateStr
  let start := parseJSDate startDate
  if jsDateLt date start then false
  else
    match frequency with
    | .daily => true
    | .weekly => jsGetDayEq date start
    | .biweekly =>
      match date, start with
      | some d, some s =>
        jsGetDayEq date start
          && (Int.fdiv (dateSerial d - dateSerial s) 7) % 2 == 0
      | _, _ => false
    | .monthly =>
      match date, start with
      | some d, some s => d.day == s.day
      | _, _ => false

/-- Running totals of the simulation loops. -/
structure RunState where
  totalShares : ℚ
  totalCashSpent : ℚ
  purchasesCount : Nat
deriving DecidableEq, Repr

/-- The for-loop of calculateGhostPortfolio: purchases are gated by the
frequency and by a raw count of clean days still available. -/
def ghostLoop (frequency : Frequency) (startDate : String) (amount : ℚ)
    (numCleanDays : Nat) :
    RunState → List PricePoint → (List PortfolioPoint × RunState)
  | st, [] => ([], st)
  | st, point :: rest =>
    let shouldPurchase := shouldPurchaseOnDate point.date frequency startDate
      && decide (st.purchasesCount < numCleanDays)
    let st1 :=
      if shouldPurchase && decide ((0 : ℚ) < point.close) then
        { totalShares := st.totalShares + amount / point.close
          totalCashSpent := st.totalCashSpent + amount
          purchasesCount := st.purchasesCount + 1 }
      else st
    let pt : PortfolioPoint :=
      { date := point.date
        cashSpent := st1.totalCashSpent
        portfolioValue := st1.totalShares * point.close
        sharesOwned := st1.totalShares }
    let res := ghostLoop frequency startDate amount numCleanDays st1 rest
    (pt :: res.1, res.2)

/-- The for-loop of calculatePotentialPortfolio: purchase on every
scheduled day. -/
def potentialLoop (frequency : Frequency) (startDate : String) (amount : ℚ) :
    RunState → List PricePoint → (List PortfolioPoint × RunState)
  | st, [] => ([], st)
  | st, point :: rest =>
    let shouldPurchase := shouldPurchaseOnDate point.date frequency startDate
    let st1 :=
      if shouldPurchase && decide ((0 : ℚ) < point.close) then
        { totalShares := st.totalShares + amount / point.close
          totalCashSpent := st.totalCashSpent + amount
          purchasesCount := st.purchasesCount + 1 }
      else st
    let pt : PortfolioPoint :=
      { date := point.date
        cashSpent := st1.totalCashSpent
        portfolioValue := st1.totalShares * point.close
        sharesOwned := st1.totalShares }
    let res := potentialLoop frequency startDate amount st1 rest
    (pt :: res.1, res.2)

/-- The final-summary block shared verbatim by both calculation functions:
currentValue is the last portfolio point's value (0 when the portfolio is
empty), gainLoss the difference, gainLossPercent the guarded percentage. -/
def buildSummary (portfolio : List PortfolioPoint) (st : RunState)
    (cleanDaysCount : Nat) : DCASummary :=
  let currentValue : ℚ :=
    match portfolio.getLast? with
    | some pt => pt.portfolioValue
    | none => 0
  let gainLoss := currentValue - st.totalCashSpent
  let gainLossPercent : ℚ :=
    if (0 : ℚ) < st.totalCashSpent then gainLoss / st.totalCashSpent * 100
    else 0
  { totalCashSpent := st.totalCashSpent
    currentValue := currentValue
    totalShares := st.totalShares
    gainLoss := gainLoss
    gainLossPercent := gainLossPercent
    cleanDaysCount := cleanDaysCount
    purchasesCount := st.purchasesCount }

/-- The all-zero summary returned by the guard clause. -/
def zeroSummary : DCASummary :=
  { totalCashSpent := 0, currentValue := 0, totalShares := 0, gainLoss := 0
    gainLossPercent := 0, cleanDaysCount := 0, purchasesCount := 0 }

/-- Embedding of calculateGhostPortfolio. -/
def calculateGhostPortfolio (history : List PricePoint) (startDate : String)
    (frequency : Frequency) (amount : ℚ) (cleanDays : List String) :
    DCAResult :=
  let numCleanDays := cleanDays.length
  if numCleanDays == 0 then
    { portfolio := [], summary := zeroSummary }
  else
    let relevantHistory := history.filter (fun point => strGe point.date startDate)
    let res := ghostLoop frequency startDate amount numCleanDays ⟨0, 0, 0⟩ relevantHistory
    { portfolio := res.1, summary := buildSummary res.1 res.2 numCleanDays }

/-- Embedding of calculatePotentialPortfolio; its summary reports the
number of purchases as cleanDaysCount. -/
def calculatePotentialPortfolio (history : List PricePoint) (startDate : String)
    (frequency : Frequency) (amount : ℚ) : DCAResult :=
  let relevantHistory := history.filter (fun point => strGe point.date startDate)
  let res := potentialLoop frequency startDate amount ⟨0, 0, 0⟩ relevantHistory
  { portfolio := res.1, summary := buildSummary res.1 res.2 res.2.purchasesCount }

/-- Month key of a portfolio point: the YYYY-MM prefix of its date
(substring from 0 to 7). -/
def monthKey (p : PortfolioPoint) : String := String.mk (p.date.data.take 7)

/-- Insertion-ordered map update, mirrors JavaScript Map.prototype.set:
an existing key keeps its position and gets the new value, a new key is
appended. -/
def mapSet (m : List (String × PortfolioPoint)) (k : String)
    (v : PortfolioPoint) : List (String × PortfolioPoint) :=
  match m with
  | [] => [(k, v)]
  | (k1, v1) :: rest =>
    if k1 == k then (k1, v) :: rest else (k1, v1) :: mapSet rest k v

/-- Embedding of aggregateByMonth: keep the last portfolio point of each
calendar month, in key-insertion order (JavaScript Map iteration order). -/
def aggregateByMonth (portfolio : List PortfolioPoint) : List PortfolioPoint :=
  (portfolio.foldl (fun m point => mapSet m (monthKey point) point) []).map
    (fun kv => kv.2)

/-! ## Invariant helpers for the simulation loops -/

/-- Pointwise monotonicity relation between consecutive portfolio points. -/
def monoStep (a b : PortfolioPoint) : Prop :=
  a.cashSpent ≤ b.cashSpent ∧ a.sharesOwned ≤ b.sharesOwned

/-- The one-iteration state update of both loops never decreases the
running totals when the purchase amount is non-negative. -/
theorem state_update_le (st : RunState) (amount close : ℚ) (cond : Bool)
    (h : 0 ≤ amount) :
    st.totalCashSpent ≤
      (if cond && decide ((0 : ℚ) < close) then
        ({ totalShares := st.totalShares + amount / close
           totalCashSpent := st.totalCashSpent + amount
           purchasesCount := st.purchasesCount + 1 } : RunState)
       else st).totalCashSpent ∧
    st.totalShares ≤
      (if cond && decide ((0 : ℚ) < close) then
        ({ totalShares := st.totalShares + amount / close
           totalCashSpent := st.totalCashSpent + amount
           purchasesCount := st.purchasesCount + 1 } : RunState)
       else st).totalShares := by
  by_cases hc : (cond && decide ((0 : ℚ) < close)) = true
  · have hclose : (0 : ℚ) < close := by
      have := (Bool.and_eq_true _ _).mp hc
      exact of_decide_eq_true this.2
    simp only [hc, if_true]
    constructor
    · linarith
    · have : 0 ≤ amount / close := div_nonneg h (le_of_lt hclose)
      linarith
  · simp only [hc, if_false, Bool.false_eq_true]
    exact ⟨le_refl _, le_refl _⟩

/-- Chain and head bounds for the ghost loop: the emitted trajectory is
monotone and starts no lower than the incoming state. -/
theorem ghostLoop_mono (frequency : Frequency) (startDate : String)
    (amount : ℚ) (numCleanDays : Nat) (h : 0 ≤ amount) :
    ∀ (l : List PricePoint) (st : RunState),
      List.Chain' monoStep (ghostLoop frequency startDate amount numCleanDays st l).1 ∧
      ∀ pt ∈ (ghostLoop frequency startDate amount numCleanDays st l).1.head?,
        st.totalCashSpent ≤ pt.cashSpent ∧ st.totalShares ≤ pt.sharesOwned := by
  intro l
  induction l with
  | nil => intro st; simp [ghostLoop]
  | cons point rest ih =>
    intro st
    simp only [ghostLoop]
    constructor
    · rw [List.chain'_cons']
      refine ⟨?_, (ih _).1⟩
      intro pt hpt
      exact ⟨((ih _).2 pt hpt).1, ((ih _).2 pt hpt).2⟩
    · intro pt hpt
      simp only [List.head?_cons, Option.mem_def, Option.some.injEq] at hpt
      subst hpt
      exact state_update_le st amount point.close
        (shouldPurchaseOnDate point.date frequency startDate
          && decide (st.purchasesCount < numCleanDays)) h

/-- Chain and head bounds for the potential loop. -/
theorem potentialLoop_mono (frequency : Frequency) (startDate : String)
    (amount : ℚ) (h : 0 ≤ amount) :
    ∀ (l : List PricePoint) (st : RunState),
      List.Chain' monoStep (potentialLoop frequency startDate amount st l).1 ∧
      ∀ pt ∈ (potentialLoop frequency startDate amount st l).1.head?,
        st.totalCashSpent ≤ pt.cashSpent ∧ st.totalShares ≤ pt.sharesOwned := by
  intro l
  induction l with
  | nil => intro st; simp [potentialLoop]
  | cons point rest ih =>
    intro st
    simp only [potentialLoop]
    constructor
    · rw [List.chain'_cons']
      refine ⟨?_, (ih _).1⟩
      intro pt hpt
      exact ⟨((ih _).2 pt hpt).1, ((ih _).2 pt hpt).2⟩
    · intro pt hpt
      simp only [List.head?_cons, Option.mem_def, Option.some.injEq] at hpt
      subst hpt
      exact state_update_le st amount point.close
        (shouldPurchaseOnDate point.date frequency startDate) h

/-- The final cash total of the ghost loop is bounded below by the
incoming cash total. -/
theorem ghostLoop_cash_le (frequency : Frequency) (startDate : String)
    (amount : ℚ) (numCleanDays : Nat) (h : 0 ≤ amount) :
    ∀ (l : List PricePoint) (st : RunState),
      st.totalCashSpent ≤
        (ghostLoop frequency startDate amount numCleanDays st l).2.totalCashSpent := by
  intro l
  induction l with
  | nil => intro st; simp [ghostLoop]
  | cons point rest ih =>
    intro st
    simp only [ghostLoop]
    refine le_trans ?_ (ih _)
    exact (state_update_le st amount point.close _ h).1

/-- The final cash total of the potential loop is bounded below by the
incoming cash total. -/
theorem potentialLoop_cash_le (frequency : Frequency) (startDate : String)
    (amount : ℚ) (h : 0 ≤ amount) :
    ∀ (l : List PricePoint) (st : RunState),
      st.totalCashSpent ≤
        (potentialLoop frequency startDate amount st l).2.totalCashSpent := by
  intro l
  induction l with
  | nil => intro st; simp [potentialLoop]
  | cons point rest ih =>
    intro st
    simp only [potentialLoop]
    refine le_trans ?_ (ih _)
    exact (state_update_le st amount point.close _ h).1

/-! ## Aggregation helpers -/

/-- Setting a key that is not present appends the binding. -/
theorem mapSet_of_not_mem (k : String) (v : PortfolioPoint) :
    ∀ (m : List (String × PortfolioPoint)),
      k ∉ m.map Prod.fst → mapSet m k v = m ++ [(k, v)] := by
  intro m
  induction m with
  | nil => intro _; rfl
  | cons kv rest ih =>
    intro hk
    obtain ⟨k1, v1⟩ := kv
    simp only [List.map_cons, List.mem_cons, not_or] at hk
    simp only [mapSet]
    rw [if_neg (by simpa [beq_iff_eq] using fun hkk => hk.1 hkk.symm)]
    rw [ih hk.2]
    rfl

/-- Keys of a map after set: unchanged when present, appended when not. -/
theorem mapSet_keys (k : String) (v : PortfolioPoint) :
    ∀ (m : List (String × PortfolioPoint)),
      (mapSet m k v).map Prod.fst =
        if k ∈ m.map Prod.fst then m.map Prod.fst else m.map Prod.fst ++ [k] := by
  intro m
  induction m with
  | nil => simp [mapSet]
  | cons kv rest ih =>
    obtain ⟨k1, v1⟩ := kv
    by_cases hkk : k1 = k
    · subst hkk
      simp [mapSet]
    · simp only [mapSet, List.map_cons]
      rw [if_neg (by simpa [beq_iff_eq] using hkk), List.map_cons, ih]
      by_cases hmem : k ∈ rest.map Prod.fst
      · rw [if_pos hmem, if_pos (List.mem_cons_of_mem _ hmem)]
      · have hnotin : k ∉ k1 :: rest.map Prod.fst := by
          intro hc
          rcases List.mem_cons.mp hc with h1 | h2
          · exact hkk h1.symm
          · exact hmem h2
        rw [if_neg hmem, if_neg hnotin]
        rfl

/-- mapSet preserves key distinctness. -/
theorem mapSet_nodup (k : String) (v : PortfolioPoint)
    (m : List (String × PortfolioPoint))
    (h : (m.map Prod.fst).Nodup) : ((mapSet m k v).map Prod.fst).Nodup := by
  rw [mapSet_keys]
  by_cases hmem : k ∈ m.map Prod.fst
  · rwa [if_pos hmem]
  · rw [if_neg hmem, List.nodup_append]
    refine ⟨h, List.nodup_singleton _, ?_⟩
    intro a ha hb
    simp only [List.mem_singleton] at hb
    subst hb
    exact hmem ha

/-- mapSet preserves the invariant that every binding's key is the month
key of its value, when used the way aggregateByMonth uses it. -/
theorem mapSet_key_inv (p : PortfolioPoint)
    (m : List (String × PortfolioPoint))
    (h : ∀ kv ∈ m, kv.1 = monthKey kv.2) :
    ∀ kv ∈ mapSet m (monthKey p) p, kv.1 = monthKey kv.2 := by
  induction m with
  | nil =>
    intro kv hkv
    simp only [mapSet, List.mem_singleton] at hkv
    subst hkv; rfl
  | cons kv1 rest ih =>
    obtain ⟨k1, v1⟩ := kv1
    intro kv hkv
    simp only [mapSet] at hkv
    by_cases hkk : (k1 == monthKey p) = true
    · rw [if_pos hkk] at hkv
      rcases List.mem_cons.mp hkv with h1 | h2
      · subst h1
        simpa [beq_iff_eq] using hkk
      · exact h kv (List.mem_cons_of_mem _ h2)
    · rw [if_neg (by simpa using hkk)] at hkv
      rcases List.mem_cons.mp hkv with h1 | h2
      · subst h1
        exact h (k1, v1) (List.mem_cons_self _ _)
      · exact ih (fun kv2 hkv2 => h kv2 (List.mem_cons_of_mem _ hkv2)) kv h2

/-- The aggregation fold of a list whose month keys are fresh and
pairwise distinct just appends the corresponding bindings. -/
theorem foldl_mapSet_of_nodup :
    ∀ (l : List PortfolioPoint) (m : List (String × PortfolioPoint)),
      (l.map monthKey).Nodup →
      (∀ p ∈ l, monthKey p ∉ m.map Prod.fst) →
      l.foldl (fun m point => mapSet m (monthKey point) point) m =
        m ++ l.map (fun p => (monthKey p, p)) := by
  intro l
  induction l with
  | nil => intro m _ _; simp
  | cons p rest ih =>
    intro m hnd hfresh
    rw [List.map_cons] at hnd
    have hnd' : (rest.map monthKey).Nodup := (List.nodup_cons.mp hnd).2
    have hfresh2 : ∀ q ∈ rest,
        monthKey q ∉ (m ++ [(monthKey p, p)]).map Prod.fst := by
      intro q hq
      rw [List.map_append, List.mem_append]
      rintro (hc | hc)
      · exact hfresh q (List.mem_cons_of_mem _ hq) hc
      · simp only [List.map_cons, List.map_nil, List.mem_singleton] at hc
        have hmem : monthKey q ∈ rest.map monthKey :=
          List.mem_map_of_mem monthKey hq
        rw [hc] at hmem
        exact (List.nodup_cons.mp hnd).1 hmem
    simp only [List.foldl_cons]
    rw [mapSet_of_not_mem _ _ m (hfresh p (List.mem_cons_self _ _))]
    rw [ih (m ++ [(monthKey p, p)]) hnd' hfresh2]
    simp

/-- Aggregating a portfolio with at most one point per month is the
identity. -/
theorem aggregateByMonth_of_nodup (l : List PortfolioPoint)
    (h : (l.map monthKey).Nodup) : aggregateByMonth l = l := by
  unfold aggregateByMonth
  rw [foldl_mapSet_of_nodup l [] h (by intro p _; simp)]
  simp only [List.nil_append, List.map_map]
  exact (List.map_congr_left (fun a _ => rfl)).trans (List.map_id l)

/-- Every binding produced by the aggregation fold keys its value's month. -/
theorem foldl_key_inv :
    ∀ (l : List PortfolioPoint) (m : List (String × PortfolioPoint)),
      (∀ kv ∈ m, kv.1 = monthKey kv.2) →
      ∀ kv ∈ l.foldl (fun m point => mapSet m (monthKey point) point) m,
        kv.1 = monthKey kv.2 := by
  intro l
  induction l with
  | nil => intro m h kv hkv; exact h kv hkv
  | cons p rest ih =>
    intro m h kv hkv
    simp only [List.foldl_cons] at hkv
    exact ih _ (mapSet_key_inv p m h) kv hkv

/-- The aggregation fold preserves key distinctness. -/
theorem foldl_keys_nodup :
    ∀ (l : List PortfolioPoint) (m : List (String × PortfolioPoint)),
      (m.map Prod.fst).Nodup →
      ((l.foldl (fun m point => mapSet m (monthKey point) point) m).map
        Prod.fst).Nodup := by
  intro l
  induction l with
  | nil => intro m h; exact h
  | cons p rest ih =>
    intro m h
    simp only [List.foldl_cons]
    exact ih _ (mapSet_nodup _ _ _ h)

/-- The output of aggregateByMonth has pairwise distinct month keys. -/
theorem aggregateByMonth_months_nodup (l : List PortfolioPoint) :
    ((aggregateByMonth l).map monthKey).Nodup := by
  unfold aggregateByMonth
  rw [List.map_map]
  have hinv := foldl_key_inv l [] (by intro kv hkv; simp at hkv)
  have hkeys : ((l.foldl (fun m point => mapSet m (monthKey point) point) []).map
      (monthKey ∘ Prod.snd)) =
      ((l.foldl (fun m point => mapSet m (monthKey point) point) []).map
        Prod.fst) := by
    apply List.map_congr_left
    intro kv hkv
    exact (hinv kv hkv).symm
  rw [hkeys]
  exact foldl_keys_nodup l [] (by simp)

/-! ## Summary arithmetic helpers -/

/-- The summary relations claimed by the spec: gain/loss difference,
guarded percentage, and last-point current value. -/
def summarySpecHolds (r : DCAResult) : Prop :=
  r.summary.gainLoss = r.summary.currentValue - r.summary.totalCashSpent ∧
  (r.summary.totalCashSpent = 0 → r.summary.gainLossPercent = 0) ∧
  (r.summary.totalCashSpent ≠ 0 →
    r.summary.gainLossPercent =
      r.summary.gainLoss / r.summary.totalCashSpent * 100) ∧
  r.summary.currentValue =
    (match r.portfolio.getLast? with
     | some pt => pt.portfolioValue
     | none => 0)

/-- buildSummary satisfies the summary relations whenever the cash total
is non-negative. -/
theorem buildSummary_spec (portfolio : List PortfolioPoint) (st : RunState)
    (n : Nat) (h0 : 0 ≤ st.totalCashSpent) :
    summarySpecHolds ⟨portfolio, buildSummary portfolio st n⟩ := by
  unfold summarySpecHolds buildSummary
  refine ⟨rfl, ?_, ?_, rfl⟩
  · intro hz
    dsimp only at hz ⊢
    rw [hz, if_neg (lt_irrefl (0 : ℚ))]
  · intro hne
    dsimp only at hne ⊢
    rw [if_pos (lt_of_le_of_ne h0 (Ne.symm hne))]

/-- The guard-clause result satisfies the summary relations. -/
theorem zeroSummary_spec :
    summarySpecHolds ⟨[], zeroSummary⟩ := by
  refine ⟨by norm_num [zeroSummary], fun _ => rfl, fun hne => absurd rfl hne, rfl⟩

/-! ## Claim theorems -/

/-- C1: the shipped Ghost funding policy gates purchases on a raw count of
clean days, not on exact qualifying-date membership.  With qualifying set
containing only 2024-01-08, the code spends the purchase money at the first
scheduled date 2024-01-01 — a date not in the qualifying set — and makes
no further purchase at 2024-01-08, contradicting the claimed exact
date-set-membership contract. -/
theorem C1_ghost_count_gating_behavior :
    (calculateGhostPortfolio [⟨"2024-01-01", 100⟩, ⟨"2024-01-08", 100⟩]
        "2024-01-01" .weekly 50 ["2024-01-08"]).portfolio.map
      (fun pt => (pt.date, pt.cashSpent)) =
      [("2024-01-01", 50), ("2024-01-08", 50)] ∧
    "2024-01-01" ∉ (["2024-01-08"] : List String) := by
  with_unfolding_all decide

/-- C4: with a positive per-purchase amount, cashSpent and sharesOwned are
non-decreasing from each portfolio point to the next, for both the Ghost
and the Potential simulation. -/
theorem C4_totals_monotone (history : List PricePoint) (startDate : String)
    (frequency : Frequency) (amount : ℚ) (cleanDays : List String)
    (h : 0 < amount) :
    List.Chain' monoStep
      (calculateGhostPortfolio history startDate frequency amount
        cleanDays).portfolio ∧
    List.Chain' monoStep
      (calculatePotentialPortfolio history startDate frequency
        amount).portfolio := by
  constructor
  · unfold calculateGhostPortfolio
    dsimp only
    split
    · exact List.chain'_nil
    · exact (ghostLoop_mono frequency startDate amount cleanDays.length
        (le_of_lt h) _ ⟨0, 0, 0⟩).1
  · exact (potentialLoop_mono frequency startDate amount (le_of_lt h) _
      ⟨0, 0, 0⟩).1

/-- Witness for C4 at a concrete input. -/
theorem C4_totals_monotone_witness :
    (0 : ℚ) < 50 ∧
    List.Chain' monoStep
      (calculateGhostPortfolio [⟨"2024-01-01", 100⟩, ⟨"2024-01-08", 110⟩]
        "2024-01-01" .weekly 50 ["2024-01-08"]).portfolio ∧
    List.Chain' monoStep
      (calculatePotentialPortfolio [⟨"2024-01-01", 100⟩, ⟨"2024-01-08", 110⟩]
        "2024-01-01" .weekly 50).portfolio :=
  ⟨by norm_num,
   (C4_totals_monotone _ _ .weekly _ _ (by norm_num)).1,
   (C4_totals_monotone _ _ .weekly _ ["2024-01-08"] (by norm_num)).2⟩

/-- C5 counterexample: with an empty price sequence but one logged clean
day, the Ghost simulator returns an empty portfolio whose summary has
cleanDaysCount = 1, so not every summary field is zero. -/
theorem C5_cleanDaysCount_counterexample :
    (calculateGhostPortfolio [] "2024-01-01" .weekly 50
      ["2024-01-01"]).portfolio = [] ∧
    (calculateGhostPortfolio [] "2024-01-01" .weekly 50
      ["2024-01-01"]).summary.cleanDaysCount = 1 := by
  with_unfolding_all decide

/-- C5 amended: when no price point survives the start-date filter, both
simulators return an empty portfolio and a summary whose money fields are
all zero; cleanDaysCount echoes the qualifying-day count in the Ghost
summary and is zero in the Potential summary. -/
theorem C5_no_relevant_prices (history : List PricePoint) (startDate : String)
    (frequency : Frequency) (amount : ℚ) (cleanDays : List String)
    (h : history.filter (fun point => strGe point.date startDate) = []) :
    (calculateGhostPortfolio history startDate frequency amount
      cleanDays).portfolio = [] ∧
    (calculateGhostPortfolio history startDate frequency amount
      cleanDays).summary.totalCashSpent = 0 ∧
    (calculateGhostPortfolio history startDate frequency amount
      cleanDays).summary.currentValue = 0 ∧
    (calculateGhostPortfolio history startDate frequency amount
      cleanDays).summary.totalShares = 0 ∧
    (calculateGhostPortfolio history startDate frequency amount
      cleanDays).summary.gainLoss = 0 ∧
    (calculateGhostPortfolio history startDate frequency amount
      cleanDays).summary.gainLossPercent = 0 ∧
    (calculateGhostPortfolio history startDate frequency amount
      cleanDays).summary.purchasesCount = 0 ∧
    (calculateGhostPortfolio history startDate frequency amount
      cleanDays).summary.cleanDaysCount = cleanDays.length ∧
    (calculatePotentialPortfolio history startDate frequency
      amount).portfolio = [] ∧
    (calculatePotentialPortfolio history startDate frequency
      amount).summary = zeroSummary := by
  unfold calculateGhostPortfolio calculatePotentialPortfolio
  rw [h]
  dsimp only
  constructor
  · split
    · rfl
    · rfl
  refine ⟨?_, ?_, ?_, ?_, ?_, ?_, ?_, ?_, ?_⟩
  · split
    · rfl
    · simp [ghostLoop, buildSummary]
  · split
    · rfl
    · simp [ghostLoop, buildSummary]
  · split
    · rfl
    · simp [ghostLoop, buildSummary]
  · split
    · rfl
    · simp [ghostLoop, buildSummary]
  · split
    · rfl
    · simp [ghostLoop, buildSummary]
  · split
    · rfl
    · simp [ghostLoop, buildSummary]
  · split
    next hguard =>
      simp only [beq_iff_eq] at hguard
      simp [zeroSummary, hguard]
    next => simp [ghostLoop, buildSummary]
  · simp [potentialLoop]
  · simp [potentialLoop, buildSummary, zeroSummary]

/-- Witness for C5 at a concrete input whose only price predates the
start date. -/
theorem C5_no_relevant_prices_witness :
    ([⟨"2023-12-31", 100⟩] : List PricePoint).filter
      (fun point => strGe point.date "2024-01-01") = [] ∧
    (calculateGhostPortfolio [⟨"2023-12-31", 100⟩] "2024-01-01" .weekly 50
      ["2024-01-05"]).portfolio = [] ∧
    (calculateGhostPortfolio [⟨"2023-12-31", 100⟩] "2024-01-01" .weekly 50
      ["2024-01-05"]).summary.cleanDaysCount = 1 :=
  ⟨by with_unfolding_all decide,
   (C5_no_relevant_prices _ _ .weekly 50 _
     (by with_unfolding_all decide)).1,
   (C5_no_relevant_prices _ _ .weekly 50 _
     (by with_unfolding_all decide)).2.2.2.2.2.2.2.1⟩

/-- C6: a Ghost simulation with an empty qualifying-day list returns an
empty portfolio and a summary with every field zero. -/
theorem C6_zero_qualifying_days (history : List PricePoint)
    (startDate : String) (frequency : Frequency) (amount : ℚ) :
    (calculateGhostPortfolio history startDate frequency amount []).portfolio
      = [] ∧
    (calculateGhostPortfolio history startDate frequency amount
      []).summary.totalCashSpent = 0 ∧
    (calculateGhostPortfolio history startDate frequency amount
      []).summary.currentValue = 0 ∧
    (calculateGhostPortfolio history startDate frequency amount
      []).summary.totalShares = 0 ∧
    (calculateGhostPortfolio history startDate frequency amount
      []).summary.gainLoss = 0 ∧
    (calculateGhostPortfolio history startDate frequency amount
      []).summary.gainLossPercent = 0 ∧
    (calculateGhostPortfolio history startDate frequency amount
      []).summary.cleanDaysCount = 0 ∧
    (calculateGhostPortfolio history startDate frequency amount
      []).summary.purchasesCount = 0 :=
  ⟨rfl, rfl, rfl, rfl, rfl, rfl, rfl, rfl⟩

/-- C7: for both simulators, gainLoss is currentValue minus totalCashSpent,
gainLossPercent is zero when totalCashSpent is zero and the exact
percentage otherwise, and currentValue is the last portfolio point's value
(zero when empty). -/
theorem C7_summary_arithmetic (history : List PricePoint) (startDate : String)
    (frequency : Frequency) (amount : ℚ) (cleanDays : List String)
    (h : 0 < amount) :
    summarySpecHolds
      (calculateGhostPortfolio history startDate frequency amount cleanDays) ∧
    summarySpecHolds
      (calculatePotentialPortfolio history startDate frequency amount) := by
  constructor
  · unfold calculateGhostPortfolio
    dsimp only
    split
    · exact zeroSummary_spec
    · refine buildSummary_spec _ _ _ ?_
      have hle := ghostLoop_cash_le frequency startDate amount
        cleanDays.length (le_of_lt h)
        (List.filter (fun point => strGe point.date startDate) history)
        ⟨0, 0, 0⟩
      simpa using hle
  · unfold calculatePotentialPortfolio
    dsimp only
    refine buildSummary_spec _ _ _ ?_
    have hle := potentialLoop_cash_le frequency startDate amount
      (le_of_lt h)
      (List.filter (fun point => strGe point.date startDate) history)
      ⟨0, 0, 0⟩
    simpa using hle

/-- Witness for C7 at a concrete input. -/
theorem C7_summary_arithmetic_witness :
    (0 : ℚ) < 50 ∧
    summarySpecHolds
      (calculateGhostPortfolio [⟨"2024-01-01", 100⟩] "2024-01-01" .weekly 50
        ["2024-01-01"]) ∧
    summarySpecHolds
      (calculatePotentialPortfolio [⟨"2024-01-01", 100⟩] "2024-01-01" .weekly
        50) :=
  ⟨by norm_num,
   (C7_summary_arithmetic _ _ .weekly _ _ (by norm_num)).1,
   (C7_summary_arithmetic _ _ .weekly _ ["2024-01-01"] (by norm_num)).2⟩

/-- C8: the scheduler is false before the start date, and for dates on or
after the start date the Weekly cadence purchases exactly on the start
date's weekday; concretely 2024-01-08 matches and 2024-01-09 does not,
2024-01-01 being a Monday (getDay 1). -/
theorem C8_weekly_scheduler :
    shouldPurchaseOnDate "2024-01-08" .weekly "2024-01-01" = true ∧
    shouldPurchaseOnDate "2024-01-09" .weekly "2024-01-01" = false ∧
    getDay ⟨2024, 1, 1⟩ = 1 ∧
    ∀ (ds ss : String) (d s : CivilDate),
      parseJSDate ds = some d → parseJSDate ss = some s →
      dateSerial s ≤ dateSerial d →
      (shouldPurchaseOnDate ds .weekly ss = true ↔ getDay d = getDay s) := by
  refine ⟨by decide, by decide, by decide, ?_⟩
  intro ds ss d s hd hs hle
  simp only [shouldPurchaseOnDate, hd, hs, jsDateLt, jsGetDayEq]
  rw [decide_eq_false (not_lt.mpr hle)]
  simp [beq_iff_eq]

/-- Witness for C8's general statement at the concrete pair of dates. -/
theorem C8_weekly_scheduler_witness :
    parseJSDate "2024-01-08" = some ⟨2024, 1, 8⟩ ∧
    parseJSDate "2024-01-01" = some ⟨2024, 1, 1⟩ ∧
    dateSerial ⟨2024, 1, 1⟩ ≤ dateSerial ⟨2024, 1, 8⟩ ∧
    (shouldPurchaseOnDate "2024-01-08" .weekly "2024-01-01" = true ↔
      getDay ⟨2024, 1, 8⟩ = getDay ⟨2024, 1, 1⟩) :=
  ⟨by decide, by decide, by decide,
   C8_weekly_scheduler.2.2.2 "2024-01-08" "2024-01-01" ⟨2024, 1, 8⟩
     ⟨2024, 1, 1⟩ (by decide) (by decide) (by decide)⟩

/-- C9: aggregateByMonth is idempotent, and is the identity on a portfolio
that already has at most one point per calendar month. -/
theorem C9_aggregate_idempotent (p : List PortfolioPoint) :
    aggregateByMonth (aggregateByMonth p) = aggregateByMonth p ∧
    ((p.map monthKey).Nodup → aggregateByMonth p = p) :=
  ⟨aggregateByMonth_of_nodup _ (aggregateByMonth_months_nodup p),
   fun h => aggregateByMonth_of_nodup p h⟩

/-- Witness for C9's identity statement on a two-month portfolio. -/
theorem C9_aggregate_idempotent_witness :
    (([⟨"2024-01-05", 0, 0, 0⟩, ⟨"2024-02-05", 1, 1, 1⟩] :
        List PortfolioPoint).map monthKey).Nodup ∧
    aggregateByMonth
        [⟨"2024-01-05", 0, 0, 0⟩, ⟨"2024-02-05", 1, 1, 1⟩] =
      [⟨"2024-01-05", 0, 0, 0⟩, ⟨"2024-02-05", 1, 1, 1⟩] :=
  ⟨by decide,
   (C9_aggregate_idempotent _).2 (by decide)⟩

/-- C10: the Potential simulation reports the number of purchases made as
its clean-day count. -/
theorem C10_potential_cleanDays_eq_purchases (history : List PricePoint)
    (startDate : String) (frequency : Frequency) (amount : ℚ) :
    (calculatePotentialPortfolio history startDate frequency
      amount).summary.cleanDaysCount =
    (calculatePotentialPortfolio history startDate frequency
      amount).summary.purchasesCount := rfl

/-! ## A small regular-expression engine

The statement parser is driven by JavaScript regexes.  The engine below
implements exactly the constructs those patterns use — literals, the
character classes they mention, sequencing, alternation, greedy ? and *,
lazy repetition, capturing groups, and the ^ and $ anchors with multiline
semantics — with the ECMAScript backtracking order (leftmost match;
alternation prefers the left branch; greedy prefers longer, lazy prefers
shorter).  Counted repetition a{n,m} and the + quantifiers are desugared
into these constructs.  Matching carries a fuel that bounds repetition
unrollings; every quantified body in the embedded patterns consumes at
least one character, so a fuel of one more than the text length is
exhaustive. -/

/-- JavaScript whitespace test (the backslash-s class) over ASCII. -/
def isSpaceChar (c : Char) : Bool :=
  c == ' ' || c == '\t' || c == '\n' || c == '\r' || c == '\x0b' || c == '\x0c'

/-- The character classes appearing in the parser's regexes. -/
inductive CClass where
  | digit
  | space
  | dot
  | alpha
  | digitComma
  | notQuoteComma
  | dashSlash
deriving DecidableEq, Repr

/-- Membership test of a character class. -/
def CClass.test : CClass → Char → Bool
  | .digit, c => isDigitChar c
  | .space, c => isSpaceChar c
  | .dot, c => !(c == '\n' || c == '\r')
  | .alpha, c => ('A' ≤ c && c ≤ 'Z') || ('a' ≤ c && c ≤ 'z')
  | .digitComma, c => isDigitChar c || c == ','
  | .notQuoteComma, c => !(c == '"' || c == ',')
  | .dashSlash, c => c == '-' || c == '/'

/-- Regular-expression syntax. -/
inductive RE where
  | eps
  | ch (c : Char)
  | cls (k : CClass)
  | seq (a b : RE)
  | alt (a b : RE)
  | opt (a : RE)
  | star (a : RE)
  | lazyStar (a : RE)
  | group (i : Nat) (a : RE)
  | bol
  | eol
deriving Repr

/-- Sequence a list of regexes. -/
def reSeq (l : List RE) : RE := l.foldr RE.seq RE.eps

/-- Literal string regex. -/
def lit (s : String) : RE := reSeq (s.data.map RE.ch)

/-- Greedy + quantifier. -/
def rePlus (a : RE) : RE := .seq a (.star a)

/-- Lazy +? quantifier. -/
def reLazyPlus (a : RE) : RE := .seq a (.lazyStar a)

/-- Exactly n greedy copies. -/
def reExactly : Nat → RE → RE
  | 0, _ => .eps
  | n + 1, a => .seq a (reExactly n a)

/-- At most n greedy copies. -/
def reUpTo : Nat → RE → RE
  | 0, _ => .eps
  | n + 1, a => .opt (.seq a (reUpTo n a))

/-- Counted greedy repetition a with braces n,m: n mandatory copies
followed by up to m minus n optional ones. -/
def reCount (n m : Nat) (a : RE) : RE :=
  .seq (reExactly n a) (reUpTo (m - n) a)

/-- Matcher flags: ci is the i flag, ml the m flag. -/
structure RFlags where
  ci : Bool
  ml : Bool
deriving DecidableEq, Repr

/-- ASCII lower-casing, used for case-insensitive literal comparison. -/
def lowerChar (c : Char) : Char :=
  if 'A' ≤ c && c ≤ 'Z' then Char.ofNat (c.toNat + 32) else c

/-- Character comparison honouring the i flag. -/
def charMatches (fl : RFlags) (a b : Char) : Bool :=
  if fl.ci then lowerChar a == lowerChar b else a == b

/-- Capture list: group index with start and stop offsets, newest first. -/
abbrev Caps := List (Nat × Nat × Nat)

/-- Substring of the text by half-open offset range. -/
def slice (text : List Char) (s e : Nat) : List Char :=
  (text.drop s).take (e - s)

/-- One fuel level of the CPS backtracking matcher, structurally recursive
on the regex; iter performs a further repetition round of a * or *? at the
next lower fuel level.  The continuation receives the position and
captures after the current regex; the first success in ECMAScript
preference order is returned. -/
def reMatchRE (fl : RFlags) (text : List Char)
    (iter : RE → Nat → Caps → (Nat → Caps → Option (Nat × Caps)) →
      Option (Nat × Caps)) :
    RE → Nat → Caps → (Nat → Caps → Option (Nat × Caps)) →
    Option (Nat × Caps)
  | .eps, i, caps, k => k i caps
  | .ch c, i, caps, k =>
    match text.get? i with
    | some d => if charMatches fl c d then k (i + 1) caps else none
    | none => none
  | .cls kc, i, caps, k =>
    match text.get? i with
    | some d => if kc.test d then k (i + 1) caps else none
    | none => none
  | .seq a b, i, caps, k =>
    reMatchRE fl text iter a i caps
      (fun j caps2 => reMatchRE fl text iter b j caps2 k)
  | .alt a b, i, caps, k =>
    match reMatchRE fl text iter a i caps k with
    | some r => some r
    | none => reMatchRE fl text iter b i caps k
  | .opt a, i, caps, k =>
    match reMatchRE fl text iter a i caps k with
    | some r => some r
    | none => k i caps
  | .star a, i, caps, k =>
    match reMatchRE fl text iter a i caps
        (fun j caps2 =>
          if j == i then none else iter (.star a) j caps2 k) with
    | some r => some r
    | none => k i caps
  | .lazyStar a, i, caps, k =>
    match k i caps with
    | some r => some r
    | none =>
      reMatchRE fl text iter a i caps
        (fun j caps2 =>
          if j == i then none else iter (.lazyStar a) j caps2 k)
  | .group idx a, i, caps, k =>
    reMatchRE fl text iter a i caps
      (fun j caps2 => k j ((idx, i, j) :: caps2))
  | .bol, i, caps, k =>
    if i == 0 then k i caps
    else if fl.ml then
      match text.get? (i - 1) with
      | some c => if c == '\n' then k i caps else none
      | none => none
    else none
  | .eol, i, caps, k =>
    if i == text.length then k i caps
    else if fl.ml then
      match text.get? i with
      | some c => if c == '\n' then k i caps else none
      | none => none
    else none

/-- Fuelled matcher: the fuel bounds repetition rounds, each of which
consumes at least one character, so one more than the text length is
exhaustive. -/
def reMatch (fl : RFlags) (text : List Char) :
    Nat → RE → Nat → Caps → (Nat → Caps → Option (Nat × Caps)) →
    Option (Nat × Caps)
  | 0, _, _, _, _ => none
  | f + 1, re, i, caps, k => reMatchRE fl text (reMatch fl text f) re i caps k

/-- Try a match at positions start, start+1, ... and return the first
(match start, match stop, captures), like the ECMAScript matcher's
forward scan. -/
def execFrom (fl : RFlags) (text : List Char) (re : RE) :
    Nat → Nat → Option (Nat × Nat × Caps)
  | 0, _ => none
  | fp + 1, p =>
    if p > text.length then none
    else
      match reMatch fl text (text.length + 1) re p []
          (fun j caps => some (j, caps)) with
      | some (e, caps) => some (p, e, caps)
      | none => execFrom fl text re fp (p + 1)

/-- First match at or after a start offset. -/
def execAt (fl : RFlags) (text : List Char) (re : RE) (start : Nat) :
    Option (Nat × Nat × Caps) :=
  execFrom fl text re (text.length + 1 - start) start

/-- The test method: does the regex match anywhere in the text. -/
def reTest (fl : RFlags) (re : RE) (text : List Char) : Bool :=
  (execAt fl text re 0).isSome

/-- Captured substring of a group (most recent write of that index). -/
def groupStr (text : List Char) (caps : Caps) (i : Nat) : List Char :=
  match caps.find? (fun t => t.1 == i) with
  | some t => slice text t.2.1 t.2.2
  | none => []

/-- Global regex replacement, mirrors String.prototype.replace with the g
flag for patterns that cannot match the empty string. -/
def replaceAllGo (fl : RFlags) (re : RE) (repl : List Char)
    (text : List Char) : Nat → Nat → List Char
  | 0, idx => slice text idx text.length
  | f + 1, idx =>
    match execAt fl text re idx with
    | none => slice text idx text.length
    | some (ms, me, _) =>
      slice text idx ms ++ repl ++
        replaceAllGo fl re repl text f (if idx < me then me else idx + 1)

/-- Global regex replacement over a whole text. -/
def replaceAll (fl : RFlags) (re : RE) (repl : List Char)
    (text : List Char) : List Char :=
  replaceAllGo fl re repl text (text.length + 1) 0

/-- Non-global regex replacement: first match only. -/
def replaceFirst (fl : RFlags) (re : RE) (repl : List Char)
    (text : List Char) : List Char :=
  match execAt fl text re 0 with
  | none => text
  | some (ms, me, _) => slice text 0 ms ++ repl ++ slice text me text.length

/-! ## Statement parser (second revision in the source file)

Transliteration of the parser's pattern families.  Group 1 is the date,
group 2 the raw description, group 3 the amount, as in the destructuring
of the match result. -/

/-- Shorthand for the digit class. -/
def reDigit : RE := .cls .digit

/-- Shorthand for the whitespace class. -/
def reSpace : RE := .cls .space

/-- Shorthand for the dot metacharacter. -/
def reDot : RE := .cls .dot

/-- The amount core: one-or-more of digits or commas, a period, two
digits. -/
def amountNum : RE :=
  reSeq [rePlus (.cls .digitComma), .ch '.', reCount 2 2 reDigit]

/-- Chase pattern 1 (g): date, description, signed dollar amount. -/
def chasePattern1 : RE := reSeq [
  .group 1 (reSeq [reCount 2 2 reDigit, .ch '/', reCount 2 2 reDigit,
    .ch '/', reCount 4 4 reDigit]),
  rePlus reSpace,
  .group 2 (reLazyPlus reDot),
  rePlus reSpace,
  .group 3 (reSeq [.opt (.ch '-'), .ch '$', rePlus (.cls .digitComma),
    .ch '.', reCount 2 2 reDigit])]

/-- Chase pattern 2 (gi): purchase-authorized format. -/
def chasePattern2 : RE := reSeq [
  .group 1 (reSeq [reCount 2 2 reDigit, .ch '/', reCount 2 2 reDigit,
    .ch '/', reCount 4 4 reDigit]),
  rePlus reSpace,
  .opt (reSeq [lit "PURCHASE AUTHORIZED ON ", reCount 2 2 reDigit,
    .ch '/', reCount 2 2 reDigit, rePlus reSpace]),
  .group 2 (reLazyPlus reDot),
  rePlus reSpace,
  .opt (reSeq [lit "CARD ", rePlus reDigit, rePlus reSpace]),
  .opt (.ch '$'),
  .group 3 amountNum]

/-- Wells Fargo pattern 1 (gm): no-year date, line-anchored amount. -/
def wellsFargoPattern1 : RE := reSeq [
  .group 1 (reSeq [reCount 1 2 reDigit, .ch '/', reCount 1 2 reDigit]),
  rePlus reSpace,
  .opt (reSeq [lit "DEBIT CARD PURCHASE", rePlus reSpace]),
  .group 2 (reLazyPlus reDot),
  rePlus reSpace,
  .group 3 amountNum,
  .star reSpace,
  .eol]

/-- Wells Fargo pattern 2 (gi): POS debit format. -/
def wellsFargoPattern2 : RE := reSeq [
  .group 1 (reSeq [reCount 1 2 reDigit, .ch '/', reCount 1 2 reDigit]),
  rePlus reSpace,
  .opt (reSeq [lit "POS DEBIT", rePlus reSpace, .ch '-', rePlus reSpace,
    lit "VISA CHECK CARD ", rePlus reDigit, rePlus reSpace, .ch '-',
    rePlus reSpace]),
  .group 2 (reLazyPlus reDot),
  rePlus reSpace,
  .opt (.ch '$'),
  .group 3 amountNum]

/-- Wells Fargo pattern 3 (g): full date format. -/
def wellsFargoPattern3 : RE := reSeq [
  .group 1 (reSeq [reCount 1 2 reDigit, .ch '/', reCount 1 2 reDigit,
    .ch '/', reCount 2 4 reDigit]),
  rePlus reSpace,
  .group 2 (reLazyPlus reDot),
  rePlus reSpace,
  .group 3 amountNum]

/-- Bank of America pattern 1 (gi): Debit/Credit suffix format. -/
def boaPattern1 : RE := reSeq [
  .group 1 (reSeq [reCount 2 2 reDigit, .ch '/', reCount 2 2 reDigit,
    .ch '/', reCount 2 4 reDigit]),
  rePlus reSpace,
  .group 2 (reLazyPlus reDot),
  rePlus reSpace,
  .opt (.ch '$'),
  .group 3 amountNum,
  rePlus reSpace,
  .opt (.alt (lit "Debit") (lit "Credit"))]

/-- Bank of America pattern 2 (gi): checkcard format. -/
def boaPattern2 : RE := reSeq [
  .group 1 (reSeq [reCount 2 2 reDigit, .ch '/', reCount 2 2 reDigit,
    .ch '/', reCount 2 4 reDigit]),
  rePlus reSpace,
  .opt (reSeq [lit "CHECKCARD ", reCount 4 4 reDigit, rePlus reSpace]),
  .group 2 (reLazyPlus reDot),
  rePlus reSpace,
  .group 3 amountNum]

/-- Generic pattern 1 (g): inline concatenated date MM/DD/YY. -/
def genericPattern1 : RE := reSeq [
  .group 1 (reSeq [reCount 1 2 reDigit, .ch '/', reCount 1 2 reDigit,
    .ch '/', reCount 2 2 reDigit]),
  .group 2 (.seq (.cls .alpha) (reLazyPlus reDot)),
  .ch '$',
  .group 3 amountNum]

/-- Generic pattern 2 (g): inline concatenated date MM/DD/YYYY. -/
def genericPattern2 : RE := reSeq [
  .group 1 (reSeq [reCount 1 2 reDigit, .ch '/', reCount 1 2 reDigit,
    .ch '/', reCount 4 4 reDigit]),
  .group 2 (.seq (.cls .alpha) (reLazyPlus reDot)),
  .ch '$',
  .group 3 amountNum]

/-- Generic pattern 3 (gm): spaced MM/DD/YYYY line. -/
def genericPattern3 : RE := reSeq [.bol,
  .group 1 (reSeq [reCount 1 2 reDigit, .ch '/', reCount 1 2 reDigit,
    .ch '/', reCount 4 4 reDigit]),
  rePlus reSpace,
  .group 2 (rePlus reDot),
  rePlus reSpace,
  .opt (.ch '$'),
  .group 3 amountNum,
  .star reSpace,
  .eol]

/-- Generic pattern 4 (gm): spaced MM/DD/YY line. -/
def genericPattern4 : RE := reSeq [.bol,
  .group 1 (reSeq [reCount 1 2 reDigit, .ch '/', reCount 1 2 reDigit,
    .ch '/', reCount 2 2 reDigit]),
  rePlus reSpace,
  .group 2 (rePlus reDot),
  rePlus reSpace,
  .opt (.ch '$'),
  .group 3 amountNum,
  .star reSpace,
  .eol]

/-- Generic pattern 5 (gm): spaced MM-DD-YYYY line. -/
def genericPattern5 : RE := reSeq [.bol,
  .group 1 (reSeq [reCount 1 2 reDigit, .ch '-', reCount 1 2 reDigit,
    .ch '-', reCount 4 4 reDigit]),
  rePlus reSpace,
  .group 2 (rePlus reDot),
  rePlus reSpace,
  .opt (.ch '$'),
  .group 3 amountNum,
  .star reSpace,
  .eol]

/-- Generic pattern 6 (gm): spaced MM/DD line without year. -/
def genericPattern6 : RE := reSeq [.bol,
  .group 1 (reSeq [reCount 1 2 reDigit, .ch '/', reCount 1 2 reDigit]),
  rePlus reSpace,
  .group 2 (rePlus reDot),
  rePlus reSpace,
  .opt (.ch '$'),
  .group 3 amountNum,
  .star reSpace,
  .eol]

/-- Generic pattern 7 (gm): tab-separated line. -/
def genericPattern7 : RE := reSeq [.bol,
  .group 1 (reSeq [reCount 1 2 reDigit, .cls .dashSlash,
    reCount 1 2 reDigit,
    .opt (.seq (.cls .dashSlash) (reCount 2 4 reDigit))]),
  rePlus (.ch '\t'),
  .group 2 (rePlus reDot),
  rePlus (.ch '\t'),
  .opt (.ch '$'),
  .group 3 amountNum,
  .star reSpace,
  .eol]

/-- Generic pattern 8 (g): CSV-like comma-separated line. -/
def genericPattern8 : RE := reSeq [
  .group 1 (reSeq [reCount 1 2 reDigit, .cls .dashSlash,
    reCount 1 2 reDigit, .cls .dashSlash, reCount 2 4 reDigit]),
  .ch ',',
  .star reSpace,
  .opt (.ch '"'),
  .group 2 (rePlus (.cls .notQuoteComma)),
  .opt (.ch '"'),
  .ch ',',
  .star reSpace,
  .opt (.ch '$'),
  .group 3 amountNum]

/-- All pattern families in priority order with their flags: bank-specific
first, generic fallback last. -/
def orderedPatterns : List (RFlags × RE) := [
  (⟨false, false⟩, chasePattern1),
  (⟨true, false⟩, chasePattern2),
  (⟨false, true⟩, wellsFargoPattern1),
  (⟨true, false⟩, wellsFargoPattern2),
  (⟨false, false⟩, wellsFargoPattern3),
  (⟨true, false⟩, boaPattern1),
  (⟨true, false⟩, boaPattern2),
  (⟨false, false⟩, genericPattern1),
  (⟨false, false⟩, genericPattern2),
  (⟨false, true⟩, genericPattern3),
  (⟨false, true⟩, genericPattern4),
  (⟨false, true⟩, genericPattern5),
  (⟨false, true⟩, genericPattern6),
  (⟨false, true⟩, genericPattern7),
  (⟨false, false⟩, genericPattern8)]

/-- The SKIP_KEYWORDS list: raw matches hitting any of these are not
transactions.  All are case-insensitive and unanchored to lines. -/
def skipKeywords : List RE := [
  reSeq [.bol, lit "balance", .eol],
  lit "ending bal",
  lit "beginning bal",
  reSeq [.bol, lit "available", .eol],
  reSeq [.bol, lit "statement", .eol],
  reSeq [lit "page ", reDigit],
  reSeq [lit "account", .star reDot, lit "number"],
  reSeq [.bol, lit "total", .eol],
  reSeq [.bol, lit "pending", .eol],
  reSeq [lit "as of ", reDigit],
  reSeq [.bol, lit "summary", .eol],
  reSeq [.bol, lit "interest", .eol],
  lit "fee waived",
  reSeq [.bol, lit "direct deposit", .eol],
  reSeq [.bol, lit "payroll", .eol],
  reSeq [.bol, lit "zelle", .eol],
  reSeq [.bol, lit "wire transfer", .eol]]

/-- The header prefix test applied to cleaned descriptions. -/
def headerRE : RE :=
  reSeq [.bol, .group 1 (.alt (lit "date") (.alt (lit "description")
    (.alt (lit "amount") (.alt (lit "balance") (lit "transaction")))))]

/-- JavaScript String.prototype.trim over ASCII. -/
def jsTrim (l : List Char) : List Char :=
  ((l.dropWhile isSpaceChar).reverse.dropWhile isSpaceChar).reverse

/-- Embedding of cleanDescription: whitespace collapse, store-number and
card-number stripping, double-space cleanup, trim. -/
def cleanDescription (desc : String) : String :=
  if desc == "" then ""
  else
    let s1 := replaceAll ⟨false, false⟩ (rePlus reSpace) [' '] desc.data
    let s2 := replaceAll ⟨false, false⟩
      (reSeq [.star reSpace, .ch '#', rePlus reDigit, .star reSpace]) [' '] s1
    let s3 := replaceFirst ⟨false, false⟩
      (reSeq [.star reSpace, reCount 4 4 reDigit, .eol]) [] s2
    let s4 := replaceAll ⟨true, false⟩
      (reSeq [lit "CARD ", rePlus reDigit]) [] s3
    let s5 := replaceAll ⟨false, false⟩
      (.seq reSpace (rePlus reSpace)) [' '] s4
    String.mk (jsTrim s5)

/-- Numeric prefix parser with the parseFloat shapes the amount strings
can take: optional sign, integer digits, optional fractional digits (the
patterns never produce exponents); none models NaN. -/
def parseFloatQ (l : List Char) : Option ℚ :=
  let signRest : ℚ × List Char :=
    match l with
    | '-' :: r => (-1, r)
    | '+' :: r => (1, r)
    | r => (1, r)
  let intDigits := signRest.2.takeWhile isDigitChar
  let rest2 := signRest.2.drop intDigits.length
  match rest2 with
  | '.' :: r2 =>
    let fracDigits := r2.takeWhile isDigitChar
    if intDigits.isEmpty && fracDigits.isEmpty then none
    else some (signRest.1 * ((digitsToNat intDigits : ℚ) +
      (digitsToNat fracDigits : ℚ) / ((10 : ℚ) ^ fracDigits.length)))
  | _ =>
    if intDigits.isEmpty then none
    else some (signRest.1 * (digitsToNat intDigits : ℚ))

/-- The Math.abs function on exact rationals. -/
def jsAbs (q : ℚ) : ℚ := if q < 0 then -q else q

/-- Embedding of parseAmount: strip dollar signs and commas, parseFloat,
absolute value; none models NaN. -/
def parseAmount (amountStr : String) : Option ℚ :=
  let cleaned := amountStr.data.filter (fun c => !(c == '$' || c == ','))
  (parseFloatQ cleaned).map (fun q => jsAbs q)

/-- Decimal digit character of a value below ten. -/
def digitChar (n : Nat) : Char := Char.ofNat ('0'.toNat + n)

/-- Decimal digits of a natural number (fuelled). -/
def natToChars : Nat → Nat → List Char
  | 0, _ => []
  | f + 1, n =>
    if n < 10 then [digitChar n]
    else natToChars f (n / 10) ++ [digitChar (n % 10)]

/-- Decimal rendering of a natural number. -/
def natToString (n : Nat) : String := String.mk (natToChars (n + 1) n)

/-- Left-pad a digit list to two characters with zeros, mirrors
padStart(2, "0") on the short strings it is applied to. -/
def padStart2 (l : List Char) : List Char :=
  if l.length ≥ 2 then l else List.replicate (2 - l.length) '0' ++ l

/-- The toFixed(2) rendering of a rational (round to cents; exact for the
cent-precision amounts the parser produces). -/
def toFixed2 (q : ℚ) : String :=
  let sign := if q < 0 then "-" else ""
  let cents := (Rat.floor (jsAbs q * 100 + 1 / 2)).toNat
  sign ++ natToString (cents / 100) ++ "." ++
    String.mk (padStart2 (natToChars (cents % 100 + 1) (cents % 100)))

/-- Embedding of isValidISODate: the constructed ISO string must survive
the Date constructor. -/
def isValidISODate (isoString : String) : Bool :=
  (parseJSDate isoString).isSome

/-- Embedding of normalizeDate.  The ambient clock reads of the source —
the current year and today's ISO date used as fallback — are explicit
parameters. -/
def normalizeDate (currentYear : Nat) (todayFallback : String)
    (dateStr : String) : String :=
  let ds := jsTrim dateStr.data
  if reTest ⟨false, false⟩ (reSeq [.bol, reCount 1 2 reDigit, .ch '/',
      reCount 1 2 reDigit, .eol]) ds then
    match splitOnChar '/' ds with
    | [month, day] =>
      let isoString := natToString currentYear ++ "-" ++
        String.mk (padStart2 month) ++ "-" ++ String.mk (padStart2 day)
      if isValidISODate isoString then isoString else todayFallback
    | _ => todayFallback
  else if reTest ⟨false, false⟩ (reSeq [.bol, reCount 1 2 reDigit, .ch '/',
      reCount 1 2 reDigit, .ch '/', reCount 2 2 reDigit, .eol]) ds then
    match splitOnChar '/' ds with
    | [month, day, year] =>
      let fullYear := if digitsToNat year > 50 then "19" ++ String.mk year
        else "20" ++ String.mk year
      let isoString := fullYear ++ "-" ++ String.mk (padStart2 month) ++
        "-" ++ String.mk (padStart2 day)
      if isValidISODate isoString then isoString else todayFallback
    | _ => todayFallback
  else if reTest ⟨false, false⟩ (reSeq [.bol, reCount 1 2 reDigit, .ch '/',
      reCount 1 2 reDigit, .ch '/', reCount 4 4 reDigit, .eol]) ds then
    match splitOnChar '/' ds with
    | [month, day, year] =>
      let isoString := String.mk year ++ "-" ++ String.mk (padStart2 month) ++
        "-" ++ String.mk (padStart2 day)
      if isValidISODate isoString then isoString else todayFallback
    | _ => todayFallback
  else if reTest ⟨false, false⟩ (reSeq [.bol, reCount 1 2 reDigit, .ch '-',
      reCount 1 2 reDigit, .ch '-', reCount 4 4 reDigit, .eol]) ds then
    match splitOnChar '-' ds with
    | [month, day, year] =>
      let isoString := String.mk year ++ "-" ++ String.mk (padStart2 month) ++
        "-" ++ String.mk (padStart2 day)
      if isValidISODate isoString then isoString else todayFallback
    | _ => todayFallback
  else if reTest ⟨false, false⟩ (reSeq [.bol, reCount 1 2 reDigit, .ch '-',
      reCount 1 2 reDigit, .ch '-', reCount 2 2 reDigit, .eol]) ds then
    match splitOnChar '-' ds with
    | [month, day, year] =>
      let fullYear := if digitsToNat year > 50 then "19" ++ String.mk year
        else "20" ++ String.mk year
      let isoString := fullYear ++ "-" ++ String.mk (padStart2 month) ++
        "-" ++ String.mk (padStart2 day)
      if isValidISODate isoString then isoString else todayFallback
    | _ => todayFallback
  else todayFallback

/-- Parsed transaction record of the statement parser. -/
structure ParsedTransaction where
  date : String
  description : String
  amount : ℚ
  rawMatch : String
deriving DecidableEq, Repr

/-- Lower-case alphanumeric test used by the dedupe key. -/
def isLowerAlnum (c : Char) : Bool :=
  ('a' ≤ c && c ≤ 'z') || isDigitChar c

/-- Embedding of createDedupeKey: date, first 20 lower-cased alphanumeric
description characters, and the cent-rounded amount. -/
def createDedupeKey (t : ParsedTransaction) : String :=
  if t.description == "" then t.date ++ "||" ++ toFixed2 t.amount
  else
    let normalizedDesc :=
      String.mk (((t.description.data.map lowerChar).filter isLowerAlnum).take 20)
    t.date ++ "|" ++ normalizedDesc ++ "|" ++ toFixed2 t.amount

/-- Embedding of isOverlapping: does the byte range intersect any claimed
range. -/
def isOverlapping (matchedRanges : List (Nat × Nat)) (start stop : Nat) :
    Bool :=
  matchedRanges.any (fun range =>
    decide (start < range.2) && decide (stop > range.1))

/-- Embedding of deduplicateTransactions: keep the first transaction per
fuzzy key, dropping descriptionless entries. -/
def dedupeGo (seen : List String) :
    List ParsedTransaction → List ParsedTransaction
  | [] => []
  | t :: rest =>
    if t.description == "" then dedupeGo seen rest
    else
      let key := createDedupeKey t
      if seen.contains key then dedupeGo seen rest
      else t :: dedupeGo (key :: seen) rest

/-- Deduplicate using the fuzzy key, first occurrence wins. -/
def deduplicateTransactions (transactions : List ParsedTransaction) :
    List ParsedTransaction :=
  dedupeGo [] transactions

/-- Stable insertion by ascending date. -/
def insertByDate (t : ParsedTransaction) :
    List ParsedTransaction → List ParsedTransaction
  | [] => [t]
  | u :: rest =>
    if lexLt u.date.data t.date.data then u :: insertByDate t rest
    else t :: u :: rest

/-- Stable sort by ascending date (the final localeCompare sort). -/
def sortByDate (l : List ParsedTransaction) : List ParsedTransaction :=
  l.foldr insertByDate []

/-- Line-ending normalization: CRLF and lone CR become LF. -/
def normalizeNewlines : List Char → List Char
  | [] => []
  | '\r' :: '\n' :: rest => '\n' :: normalizeNewlines rest
  | '\r' :: rest => '\n' :: normalizeNewlines rest
  | c :: rest => c :: normalizeNewlines rest

/-- The per-pattern exec-while loop body of parseStatementText: walk the
matches of one pattern, apply the overlap check, the skip list, the
description, amount and date validations, and extend the claimed ranges
and the transaction list. -/
def scanPattern (currentYear : Nat) (todayFallback : String) (fl : RFlags)
    (text : List Char) (re : RE) :
    Nat → Nat → List (Nat × Nat) → List ParsedTransaction →
    (List (Nat × Nat) × List ParsedTransaction)
  | 0, _, matchedRanges, transactions => (matchedRanges, transactions)
  | f + 1, idx, matchedRanges, transactions =>
    match execAt fl text re idx with
    | none => (matchedRanges, transactions)
    | some (matchStart, matchEnd, caps) =>
      let next := if idx < matchEnd then matchEnd else idx + 1
      let rawMatch := slice text matchStart matchEnd
      if isOverlapping matchedRanges matchStart matchEnd then
        scanPattern currentYear todayFallback fl text re f next
          matchedRanges transactions
      else if skipKeywords.any (fun p => reTest ⟨true, false⟩ p rawMatch) then
        scanPattern currentYear todayFallback fl text re f next
          matchedRanges transactions
      else
        let description := cleanDescription (String.mk (groupStr text caps 2))
        if description == "" || description.data.length < 3 then
          scanPattern currentYear todayFallback fl text re f next
            matchedRanges transactions
        else if reTest ⟨true, false⟩ headerRE description.data then
          scanPattern currentYear todayFallback fl text re f next
            matchedRanges transactions
        else
          match parseAmount (String.mk (groupStr text caps 3)) with
          | none =>
            scanPattern currentYear todayFallback fl text re f next
              matchedRanges transactions
          | some amount =>
            if amount ≤ 0 || amount > 100000 then
              scanPattern currentYear todayFallback fl text re f next
                matchedRanges transactions
            else
              let normalizedDate := normalizeDate currentYear todayFallback
                (String.mk (groupStr text caps 1))
              if ! isValidISODate normalizedDate then
                scanPattern currentYear todayFallback fl text re f next
                  matchedRanges transactions
              else
                scanPattern currentYear todayFallback fl text re f next
                  (matchedRanges ++ [(matchStart, matchEnd)])
                  (transactions ++ [{ date := normalizedDate
                                      description := description
                                      amount := amount
                                      rawMatch := String.mk rawMatch }])

/-- The pattern-family loop of parseStatementText, returning the claimed
ranges together with the accepted transactions (before deduplication and
sorting). -/
def parseStatementCore (currentYear : Nat) (todayFallback : String)
    (text : String) : List (Nat × Nat) × List ParsedTransaction :=
  let normalizedText := normalizeNewlines text.data
  orderedPatterns.foldl
    (fun acc pat =>
      scanPattern currentYear todayFallback pat.1 normalizedText pat.2
        (normalizedText.length + 1) 0 acc.1 acc.2)
    ([], [])

/-- Embedding of parseStatementText: scan all pattern families, then
deduplicate and sort by date.  The ambient clock reads are explicit
parameters. -/
def parseStatementText (currentYear : Nat) (todayFallback : String)
    (text : String) : List ParsedTransaction :=
  sortByDate (deduplicateTransactions
    (parseStatementCore currentYear todayFallback text).2)

/-! ## Overlap suppression -/

/-- Two claimed byte ranges are disjoint. -/
def rangesDisjoint (r1 r2 : Nat × Nat) : Prop := r2.2 ≤ r1.1 ∨ r1.2 ≤ r2.1

/-- Appending a range that isOverlapping rejects against every claimed
range preserves pairwise disjointness. -/
theorem pairwise_append_ranges (ranges : List (Nat × Nat)) (ms me : Nat)
    (h : ranges.Pairwise rangesDisjoint)
    (hno : isOverlapping ranges ms me = false) :
    (ranges ++ [(ms, me)]).Pairwise rangesDisjoint := by
  rw [List.pairwise_append]
  refine ⟨h, List.pairwise_singleton _ _, ?_⟩
  intro r hr r2 hr2
  simp only [List.mem_singleton] at hr2
  subst hr2
  unfold isOverlapping at hno
  rw [List.any_eq_false] at hno
  have hf := hno r hr
  simp only [Bool.and_eq_true, decide_eq_true_eq, not_and_or, not_lt,
    gt_iff_lt] at hf
  rcases hf with hf | hf
  · exact Or.inr hf
  · exact Or.inl hf

/-- The per-pattern scan only ever claims ranges that the overlap check
admits, so the claimed ranges stay pairwise disjoint. -/
theorem scanPattern_ranges_pairwise (currentYear : Nat)
    (todayFallback : String) (fl : RFlags) (text : List Char) (re : RE) :
    ∀ (f idx : Nat) (ranges : List (Nat × Nat))
      (txns : List ParsedTransaction),
      ranges.Pairwise rangesDisjoint →
      ((scanPattern currentYear todayFallback fl text re f idx ranges
        txns).1).Pairwise rangesDisjoint := by
  intro f
  induction f with
  | zero => intro idx ranges txns h; simpa [scanPattern] using h
  | succ f ih =>
    intro idx ranges txns h
    rw [scanPattern]
    cases hexec : execAt fl text re idx with
    | none => simpa using h
    | some m =>
      obtain ⟨ms, me, caps⟩ := m
      dsimp only
      split
      next hover => exact ih _ _ _ h
      next hover =>
        split
        next => exact ih _ _ _ h
        next =>
          split
          next => exact ih _ _ _ h
          next =>
            split
            next => exact ih _ _ _ h
            next =>
              split
              next => exact ih _ _ _ h
              next amount =>
                split
                next => exact ih _ _ _ h
                next =>
                  split
                  next => exact ih _ _ _ h
                  next =>
                    exact ih _ _ _ (pairwise_append_ranges ranges ms me h
                      (Bool.not_eq_true _ ▸ eq_false_of_ne_true hover))

/-- The pattern-family fold preserves pairwise disjointness of the claimed
ranges. -/
theorem foldl_scan_pairwise (currentYear : Nat) (todayFallback : String)
    (text : List Char) :
    ∀ (pats : List (RFlags × RE))
      (acc : List (Nat × Nat) × List ParsedTransaction),
      acc.1.Pairwise rangesDisjoint →
      ((pats.foldl
        (fun acc pat =>
          scanPattern currentYear todayFallback pat.1 text pat.2
            (text.length + 1) 0 acc.1 acc.2) acc).1).Pairwise
        rangesDisjoint := by
  intro pats
  induction pats with
  | nil => intro acc h; exact h
  | cons p rest ih =>
    intro acc h
    exact ih _ (scanPattern_ranges_pairwise currentYear todayFallback p.1
      text p.2 _ _ _ _ h)

/-- The statement scan claims pairwise disjoint byte ranges: an extraction
whose range overlaps one claimed by an earlier (higher-priority) pattern
is never emitted. -/
theorem parseStatementCore_ranges_pairwise (currentYear : Nat)
    (todayFallback text : String) :
    ((parseStatementCore currentYear todayFallback text).1).Pairwise
      rangesDisjoint := by
  unfold parseStatementCore
  dsimp only
  exact foldl_scan_pairwise currentYear todayFallback _ orderedPatterns
    ([], []) List.Pairwise.nil

/-- C3: claimed byte ranges are pairwise disjoint for every input —
first-match-wins by family priority at byte-range granularity — and on
the concrete Chase/generic overlap example exactly one transaction is
produced, with amount 5.75. -/
theorem C3_overlap_suppression :
    (∀ (currentYear : Nat) (todayFallback text : String),
      ((parseStatementCore currentYear todayFallback text).1).Pairwise
        rangesDisjoint) ∧
    (parseStatementText 2025 "2025-06-15"
        "01/15/2024  STARBUCKS #12345 SEATTLE WA  -$5.75").map
      (fun t => (t.date, t.description, t.amount)) =
      [("2024-01-15", "STARBUCKS SEATTLE WA", (575/100 : ℚ))] :=
  ⟨fun currentYear todayFallback text =>
    parseStatementCore_ranges_pairwise currentYear todayFallback text,
   by with_unfolding_all decide⟩

/-- C2: a candidate whose date string is not a valid calendar date is NOT
dropped: normalizeDate maps the unparseable 13/45/2024 (its ISO form
2024-13-45 is invalid) to the today-fallback date, and parseStatementText
emits the transaction carrying that substituted placeholder date. -/
theorem C2_today_fallback_emitted :
    (parseStatementText 2025 "2025-06-15"
        "13/45/2024  COFFEE SHOP DOWNTOWN  -$5.75").map
      (fun t => (t.date, t.amount)) = [("2025-06-15", (575/100 : ℚ))] ∧
    normalizeDate 2025 "2025-06-15" "13/45/2024" = "2025-06-15" ∧
    parseJSDate "2024-13-45" = none := by
  with_unfolding_all decide

end ViceVault
